import Mathlib

/-
Formal model of src/bot.js (a Telegram chat bot): the conversation context
manager, the AI proxy with rollback, the Catbox media relay, the JSON
persistence layer for conversation history, and the two persisted feature
toggles.  Each definition is a shallow embedding of the corresponding
JavaScript function; line numbers refer to src/bot.js.
-/

namespace BotTele

/-- An in-memory conversation message as created by the live code path
(bot.js lines 227-231, 237-241, 252-256): role, content and timestamp are
always present there. -/
structure Message where
  role : String
  content : String
  timestamp : Nat
deriving DecidableEq, Repr

/-- Token-cost estimate of one message (bot.js line 201):
content length plus a fixed overhead of 10. -/
def msgCost (m : Message) : Nat := m.content.length + 10

/-- Summed cost estimate of a list of messages. -/
def sumCost (l : List Message) : Nat := (l.map msgCost).sum

/-- The accumulation loop of getRelevantConversationContext
(bot.js lines 195-209), phrased over the newest-first reversal of the
history: keep taking messages while the running total stays within
maxTokens, stop at the first message that does not fit. -/
def takeBudget (maxTokens : Nat) : Nat → List Message → List Message
  | _, [] => []
  | currentTokens, m :: rest =>
    if currentTokens + msgCost m ≤ maxTokens then
      m :: takeBudget maxTokens (currentTokens + msgCost m) rest
    else
      []

/-- getRelevantConversationContext (bot.js lines 192-212) on one chat's
history list: returns [] for an empty history, otherwise scans from the
newest message, accumulating within the budget and prepending so the result
stays chronological.  The scan stops (break) at the first message that
would exceed the budget. -/
def getRelevantConversationContext (history : List Message) (maxTokens : Nat) : List Message :=
  if history.isEmpty then []
  else (takeBudget maxTokens 0 history.reverse).reverse

theorem takeBudget_le (B : Nat) (l : List Message) :
    ∀ cur : Nat, cur ≤ B → cur + sumCost (takeBudget B cur l) ≤ B := by
  induction l with
  | nil =>
    intro cur h
    simp only [takeBudget, sumCost, List.map_nil, List.sum_nil]
    omega
  | cons m rest ih =>
    intro cur h
    by_cases hc : cur + msgCost m ≤ B
    · have hrec := ih (cur + msgCost m) hc
      simp only [takeBudget, if_pos hc, sumCost, List.map_cons, List.sum_cons] at hrec ⊢
      omega
    · simp [takeBudget, if_neg hc, sumCost, h]

theorem takeBudget_append (B : Nat) (l : List Message) :
    ∀ cur : Nat, ∃ q, l = takeBudget B cur l ++ q := by
  induction l with
  | nil => intro cur; exact ⟨[], rfl⟩
  | cons m rest ih =>
    intro cur
    by_cases hc : cur + msgCost m ≤ B
    · obtain ⟨q, hq⟩ := ih (cur + msgCost m)
      exact ⟨q, by simp [takeBudget, if_pos hc]; exact hq⟩
    · exact ⟨m :: rest, by simp [takeBudget, if_neg hc]⟩

theorem takeBudget_longest (B : Nat) (p : List Message) :
    ∀ (q : List Message) (cur : Nat), cur + sumCost p ≤ B →
      p.length ≤ (takeBudget B cur (p ++ q)).length := by
  induction p with
  | nil => intro q cur _; simp
  | cons m p ih =>
    intro q cur hs
    have hsum : cur + (msgCost m + sumCost p) ≤ B := by
      simpa [sumCost] using hs
    have hc : cur + msgCost m ≤ B := by omega
    have hrec := ih q (cur + msgCost m) (by omega)
    simp only [List.append_eq] at hrec
    simp only [List.cons_append, takeBudget, if_pos hc, List.length_cons, List.append_eq]
    omega

theorem sumCost_reverse (l : List Message) : sumCost l.reverse = sumCost l := by
  simp [sumCost, List.sum_reverse]

theorem takeBudget_head (B cur : Nat) (l : List Message)
    (h : takeBudget B cur l ≠ []) : (takeBudget B cur l).head? = l.head? := by
  cases l with
  | nil => simp [takeBudget] at h
  | cons m rest =>
    by_cases hc : cur + msgCost m ≤ B
    · simp [takeBudget, if_pos hc]
    · simp [takeBudget, if_neg hc] at h

/-- C1 as written is false on the code: when even the newest message alone
exceeds the budget, the scan breaks immediately and the result is empty, so
it does not end at the last message.  Concretely, a single message of cost
15 with budget 10 yields []. -/
theorem claim_C1_counterexample :
    getRelevantConversationContext [⟨"user", "hello", 0⟩] 10 = []
    ∧ ([⟨"user", "hello", 0⟩] : List Message) ≠ [] := by
  constructor
  · rfl
  · decide

/-- C1 (amended): for every non-empty history and budget B,
getRelevantConversationContext returns a contiguous suffix of the input
(hence chronological), whose summed cost (length(content)+10 per message)
is at most B, which ends at the last message whenever it is non-empty, and
which is the longest suffix fitting the budget (so including the next-older
message would exceed B); the result is empty exactly when even the newest
message alone exceeds B. -/
theorem claim_C1_amended (history : List Message) (B : Nat) (hne : history ≠ []) :
    (∃ p, history = p ++ getRelevantConversationContext history B)
    ∧ sumCost (getRelevantConversationContext history B) ≤ B
    ∧ (getRelevantConversationContext history B ≠ [] →
        (getRelevantConversationContext history B).getLast? = history.getLast?)
    ∧ (∀ s p2, history = p2 ++ s → sumCost s ≤ B →
        s.length ≤ (getRelevantConversationContext history B).length) := by
  have hemp : history.isEmpty = false := by
    simpa [List.isEmpty_iff] using hne
  have hdef : getRelevantConversationContext history B
      = (takeBudget B 0 history.reverse).reverse := by
    simp [getRelevantConversationContext, hemp]
  obtain ⟨q, hq⟩ := takeBudget_append B history.reverse 0
  refine ⟨⟨q.reverse, ?_⟩, ?_, ?_, ?_⟩
  · rw [hdef]
    calc history = history.reverse.reverse := by simp
    _ = (takeBudget B 0 history.reverse ++ q).reverse := by rw [← hq]
    _ = q.reverse ++ (takeBudget B 0 history.reverse).reverse := by
        simp [List.reverse_append]
  · rw [hdef, sumCost_reverse]
    simpa using takeBudget_le B history.reverse 0 (Nat.zero_le B)
  · intro hne2
    rw [hdef] at hne2 ⊢
    have htb : takeBudget B 0 history.reverse ≠ [] := by
      intro h0
      exact hne2 (by simp [h0])
    have h1 : (takeBudget B 0 history.reverse).reverse.getLast?
        = (takeBudget B 0 history.reverse).head? := by
      simp
    have h2 : history.getLast? = history.reverse.head? := by
      simp
    rw [h1, h2]
    exact takeBudget_head B 0 history.reverse htb
  · intro s p2 hsplit hsum
    have hrev : history.reverse = s.reverse ++ p2.reverse := by
      rw [hsplit]; simp
    have := takeBudget_longest B s.reverse p2.reverse 0
      (by simpa [sumCost_reverse] using hsum)
    rw [hdef]
    rw [← hrev] at this
    simpa using this

theorem claim_C1_witness :
    (∃ p, ([⟨"system", "sys", 0⟩, ⟨"user", "hi", 1⟩] : List Message)
        = p ++ getRelevantConversationContext [⟨"system", "sys", 0⟩, ⟨"user", "hi", 1⟩] 900)
    ∧ sumCost (getRelevantConversationContext [⟨"system", "sys", 0⟩, ⟨"user", "hi", 1⟩] 900) ≤ 900
    ∧ (getRelevantConversationContext [⟨"system", "sys", 0⟩, ⟨"user", "hi", 1⟩] 900 ≠ [] →
        (getRelevantConversationContext [⟨"system", "sys", 0⟩, ⟨"user", "hi", 1⟩] 900).getLast?
          = ([⟨"system", "sys", 0⟩, ⟨"user", "hi", 1⟩] : List Message).getLast?)
    ∧ (∀ s p2, ([⟨"system", "sys", 0⟩, ⟨"user", "hi", 1⟩] : List Message) = p2 ++ s →
        sumCost s ≤ 900 →
        s.length ≤ (getRelevantConversationContext [⟨"system", "sys", 0⟩, ⟨"user", "hi", 1⟩] 900).length) :=
  claim_C1_amended [⟨"system", "sys", 0⟩, ⟨"user", "hi", 1⟩] 900 (by decide)

/-- C2 as written is false on the code: a newest message whose cost
(length(content)+10) strictly exceeds the budget is NOT included; the
accumulation condition 0 + cost <= budget fails on the first iteration and
the loop breaks, returning [].  Concretely: one message of cost 15 with
budget 14 yields []. -/
theorem claim_C2_counterexample :
    getRelevantConversationContext [⟨"user", "aaaaa", 1⟩] 14 = []
    ∧ msgCost ⟨"user", "aaaaa", 1⟩ > 14 := by
  constructor
  · rfl
  · decide

/-- C2 (amended): whenever the newest message alone has cost strictly
greater than the budget B, getRelevantConversationContext returns the empty
list — the oversized newest message (and with it everything older) is
dropped entirely. -/
theorem claim_C2_amended (older : List Message) (m : Message) (B : Nat)
    (h : B < msgCost m) :
    getRelevantConversationContext (older ++ [m]) B = [] := by
  have hemp : (older ++ [m]).isEmpty = false := by
    simp [List.isEmpty_iff]
  have hrev : (older ++ [m]).reverse = m :: older.reverse := by simp
  simp [getRelevantConversationContext, hemp, hrev, takeBudget]
  omega

theorem claim_C2_witness :
    14 < msgCost ⟨"user", "bbbbb", 3⟩
    ∧ getRelevantConversationContext ([⟨"user", "hi", 2⟩] ++ [⟨"user", "bbbbb", 3⟩]) 14 = [] :=
  ⟨by decide, claim_C2_amended [⟨"user", "hi", 2⟩] ⟨"user", "bbbbb", 3⟩ 14 (by decide)⟩

/-- Bot configuration slice used by getAIResponse (config.js through
BOT_CONFIG, bot.js lines 43, 216-234, 266): optional default personality
key, the personality table (key to systemMessage), and the two fixed error
strings. -/
structure BotConfig where
  defaultPersonality : Option String
  personalities : List (String × String)
  aiDisabled : String
  apiFailure : String

/-- First-match association-list lookup, modelling JavaScript object
property lookup BOT_CONFIG.personalities[key] (object keys are unique). -/
def lookupPersonality : List (String × String) → String → Option String
  | [], _ => none
  | (k, v) :: rest, key => if k = key then some v else lookupPersonality rest key

/-- Mutable globals of bot.js that the modelled handlers touch:
conversationHistory (line 34; a chat id is mapped to none when the key is
absent from the object), aiEnabled (line 1839) and uploadEnabled (line 50). -/
structure BotState where
  history : Nat → Option (List Message)
  aiEnabled : Bool
  uploadEnabled : Bool

/-- Point update of the conversation-history map
(conversationHistory[chatId] = ...). -/
def updateHist (h : Nat → Option (List Message)) (chatId : Nat) (l : List Message) :
    Nat → Option (List Message) :=
  fun c => if c = chatId then some l else h c

/-- The chat's history list, [] when the key is absent. -/
def histAt (st : BotState) (chatId : Nat) : List Message :=
  (st.history chatId).getD []

/-- The system seed pushed by lazy initialization (bot.js lines 224-233):
one system message when BOT_CONFIG.defaultPersonality is truthy (a
non-empty string) and names an existing personality, nothing otherwise. -/
def initialSeed (cfg : BotConfig) (now : Nat) : List Message :=
  match cfg.defaultPersonality with
  | none => []
  | some key =>
    if key = "" then []
    else
      match lookupPersonality cfg.personalities key with
      | some sys => [⟨"system", sys, now⟩]
      | none => []

/-- Lazy initialization of a chat's history (bot.js lines 221-234): runs
only when the chat id is entirely absent from conversationHistory — a key
present with any array (even []) is truthy as !conversationHistory[chatId]
is false — and then seeds the optional system message. -/
def ensureInit (cfg : BotConfig) (h : Nat → Option (List Message)) (chatId now : Nat) :
    Nat → Option (List Message) :=
  match h chatId with
  | some _ => h
  | none => updateHist h chatId (initialSeed cfg now)

/-- The chat's history right before the user message is appended and the
completion request is issued: the lazily-initialized history. -/
def preCallHistory (cfg : BotConfig) (st : BotState) (chatId now : Nat) : List Message :=
  (ensureInit cfg st.history chatId now chatId).getD []

/-- Result of one getAIResponse run: the final global state, the returned
string, and whether the outbound completion request was issued. -/
structure AIResult where
  state : BotState
  reply : String
  networkCalled : Bool

/-- getAIResponse (bot.js lines 215-268).  outcome models the axios
completion call: none when the promise rejects (network error or non-2xx,
the catch branch), some r when it resolves with response.data.result = r.
Disabled AI returns the fixed notice before touching anything; otherwise
the chat is lazily initialized, the user message is appended, and on
success the assistant reply is appended (followed by an asynchronous
persistence, not modelled here) while on failure the just-appended user
message is popped and the fixed failure string returned. -/
def getAIResponse (cfg : BotConfig) (st : BotState) (chatId : Nat) (message : String)
    (outcome : Option String) (now : Nat) : AIResult :=
  if st.aiEnabled = false then
    ⟨st, cfg.aiDisabled, false⟩
  else
    let h1 := ensureInit cfg st.history chatId now
    let withUser := (h1 chatId).getD [] ++ [⟨"user", message, now⟩]
    match outcome with
    | some reply =>
      ⟨⟨updateHist h1 chatId (withUser ++ [⟨"assistant", reply, now⟩]),
        st.aiEnabled, st.uploadEnabled⟩, reply, true⟩
    | none =>
      ⟨⟨updateHist h1 chatId withUser.dropLast,
        st.aiEnabled, st.uploadEnabled⟩, cfg.apiFailure, true⟩

/-- The /clear command handler's state mutation (bot.js lines 873-877) and
equally the reset_conversation callback (lines 1445-1447): the chat's
history is set to the empty list — the key stays present in the map. -/
def clearConversation (st : BotState) (chatId : Nat) : BotState :=
  ⟨updateHist st.history chatId [], st.aiEnabled, st.uploadEnabled⟩

theorem updateHist_same (h : Nat → Option (List Message)) (chatId : Nat) (l : List Message) :
    updateHist h chatId l chatId = some l := by
  simp [updateHist]

/-- C3: with AI enabled, a failed completion call leaves the chat's history
exactly at its pre-call state (the history after lazy initialization,
before the user message is appended), in particular with the same length;
a successful call leaves it at the pre-call length plus 2 (user message,
then assistant message). -/
theorem claim_C3 (cfg : BotConfig) (st : BotState) (chatId : Nat) (message reply : String)
    (now : Nat) (hEnabled : st.aiEnabled = true) :
    (getAIResponse cfg st chatId message none now).state.history chatId
        = some (preCallHistory cfg st chatId now)
    ∧ (histAt (getAIResponse cfg st chatId message none now).state chatId).length
        = (preCallHistory cfg st chatId now).length
    ∧ (histAt (getAIResponse cfg st chatId message (some reply) now).state chatId).length
        = (preCallHistory cfg st chatId now).length + 2 := by
  have hne : ¬ (st.aiEnabled = false) := by simp [hEnabled]
  refine ⟨?_, ?_, ?_⟩
  · simp [getAIResponse, hne, preCallHistory, updateHist_same, List.dropLast_concat]
  · simp [getAIResponse, hne, histAt, preCallHistory, updateHist_same, List.dropLast_concat]
  · simp [getAIResponse, hne, histAt, preCallHistory, updateHist_same]

theorem claim_C3_witness :
    ((getAIResponse ⟨some "def", [("def", "S")], "off", "fail"⟩
        ⟨fun _ => none, true, true⟩ 7 "hi" none 3).state.history 7
      = some (preCallHistory ⟨some "def", [("def", "S")], "off", "fail"⟩
          ⟨fun _ => none, true, true⟩ 7 3))
    ∧ ((histAt (getAIResponse ⟨some "def", [("def", "S")], "off", "fail"⟩
          ⟨fun _ => none, true, true⟩ 7 "hi" none 3).state 7).length
        = (preCallHistory ⟨some "def", [("def", "S")], "off", "fail"⟩
            ⟨fun _ => none, true, true⟩ 7 3).length)
    ∧ ((histAt (getAIResponse ⟨some "def", [("def", "S")], "off", "fail"⟩
          ⟨fun _ => none, true, true⟩ 7 "hi" (some "yo") 3).state 7).length
        = (preCallHistory ⟨some "def", [("def", "S")], "off", "fail"⟩
            ⟨fun _ => none, true, true⟩ 7 3).length + 2) :=
  claim_C3 ⟨some "def", [("def", "S")], "off", "fail"⟩
    ⟨fun _ => none, true, true⟩ 7 "hi" "yo" 3 rfl

/-- C4: after /clear (or reset_conversation) set a chat's history to the
empty list, the next successful AI turn does not re-seed the system
personality message: the key is still present in conversationHistory, so
lazy initialization is skipped even when a default personality is
configured, and the history ends up as exactly [user, assistant]. -/
theorem claim_C4 (cfg : BotConfig) (st : BotState) (chatId : Nat) (message reply : String)
    (now : Nat) (hEnabled : st.aiEnabled = true) :
    histAt (getAIResponse cfg (clearConversation st chatId) chatId message
        (some reply) now).state chatId
      = [⟨"user", message, now⟩, ⟨"assistant", reply, now⟩] := by
  have hne : ¬ ((clearConversation st chatId).aiEnabled = false) := by
    simp [clearConversation, hEnabled]
  have hkey : (clearConversation st chatId).history chatId = some [] := by
    simp [clearConversation, updateHist_same]
  simp [getAIResponse, hne, histAt, ensureInit, hkey, updateHist_same]

theorem claim_C4_witness :
    histAt (getAIResponse ⟨some "def", [("def", "S")], "off", "fail"⟩
        (clearConversation ⟨fun _ => some [⟨"system", "S", 0⟩, ⟨"user", "a", 1⟩], true, true⟩ 9)
        9 "hello" (some "reply") 5).state 9
      = [⟨"user", "hello", 5⟩, ⟨"assistant", "reply", 5⟩] :=
  claim_C4 ⟨some "def", [("def", "S")], "off", "fail"⟩
    ⟨fun _ => some [⟨"system", "S", 0⟩, ⟨"user", "a", 1⟩], true, true⟩ 9 "hello" "reply" 5 rfl

/-- C8: with the AI feature toggle disabled, getAIResponse returns the
fixed disabled-notice string, issues no network call, and leaves the whole
state (in particular every chat's history) untouched. -/
theorem claim_C8 (cfg : BotConfig) (st : BotState) (chatId : Nat) (message : String)
    (outcome : Option String) (now : Nat) (hDisabled : st.aiEnabled = false) :
    getAIResponse cfg st chatId message outcome now = ⟨st, cfg.aiDisabled, false⟩ := by
  simp [getAIResponse, hDisabled]

theorem claim_C8_witness :
    getAIResponse ⟨some "def", [("def", "S")], "off", "fail"⟩
        ⟨fun _ => some [⟨"user", "a", 1⟩], false, true⟩ 4 "hi" (some "yo") 8
      = ⟨⟨fun _ => some [⟨"user", "a", 1⟩], false, true⟩, "off", false⟩ :=
  claim_C8 ⟨some "def", [("def", "S")], "off", "fail"⟩
    ⟨fun _ => some [⟨"user", "a", 1⟩], false, true⟩ 4 "hi" (some "yo") 8 rfl

/-- Result of uploadToCatbox: a shareable URL or an error string. -/
inductive UploadResult where
  | ok (url : String)
  | err (message : String)
deriving DecidableEq, Repr

/-- Whether an upload result is a success. -/
def UploadResult.isOk : UploadResult → Bool
  | .ok _ => true
  | .err _ => false

/-- The response-classification part of uploadToCatbox (bot.js lines
90-100), as a function of the host's response body: success exactly when
the body is truthy (non-empty) and starts with the Catbox file domain, in
which case the trimmed body is the URL; otherwise failure carrying
response.data || 'Upload gagal', i.e. the body itself when non-empty and
the fixed fallback for an empty (falsy) body.  (A thrown request error is
a separate failure path carrying the exception message, lines 101-107.) -/
def uploadToCatbox (body : String) : UploadResult :=
  if (body != "") && body.startsWith "https://files.catbox.moe/" then
    .ok body.trim
  else
    .err (if body = "" then "Upload gagal" else body)

/-- C5 as written is false on the code: an empty response body yields a
failure whose error detail is the fixed fallback string 'Upload gagal',
not the original (empty) response text. -/
theorem claim_C5_counterexample :
    uploadToCatbox "" = UploadResult.err "Upload gagal"
    ∧ ("Upload gagal" : String) ≠ "" := by
  constructor
  · rfl
  · decide

/-- C5 (amended): a relay result is a success if and only if the response
body starts with the host's known link domain https://files.catbox.moe/;
any other body yields a failure, whose error detail is the original
response text when the body is non-empty and the fixed fallback
'Upload gagal' when the body is empty. -/
theorem claim_C5_amended (body : String) :
    ((uploadToCatbox body).isOk = body.startsWith "https://files.catbox.moe/")
    ∧ (body.startsWith "https://files.catbox.moe/" = false →
        uploadToCatbox body = .err (if body = "" then "Upload gagal" else body)) := by
  by_cases hb : body = ""
  · subst hb
    exact ⟨by decide, fun _ => rfl⟩
  · have hbne : (body != "") = true := by
      simpa using hb
    constructor
    · cases hsw : body.startsWith "https://files.catbox.moe/" with
      | true => simp [uploadToCatbox, hbne, hsw, UploadResult.isOk]
      | false => simp [uploadToCatbox, hbne, hsw, UploadResult.isOk]
    · intro hsw
      simp [uploadToCatbox, hbne, hsw]

set_option maxRecDepth 4000 in
theorem claim_C5_witness :
    ((uploadToCatbox "oops").isOk = ("oops" : String).startsWith "https://files.catbox.moe/")
    ∧ uploadToCatbox "oops" = UploadResult.err "oops" :=
  ⟨(claim_C5_amended "oops").1, by
    simpa using (claim_C5_amended "oops").2 (by decide)⟩

/-- Observable side effects of the media handlers, in order of occurrence:
sendChatAction, sendMessage, the Telegram getFile/download step, and the
Catbox upload step. -/
inductive BotAction where
  | chatAction (chatId : Nat) (kind : String)
  | sendMessage (chatId : Nat) (text : String)
  | getFile (fileId : String)
  | catboxUpload (fileName : String)
deriving DecidableEq, Repr

/-- Decimal rendering of (bytes / 1048576).toFixed(2) used in the success
reply (truncating where JavaScript float rounding may differ; no claim
depends on this string). -/
def formatMB (bytes : Nat) : String :=
  toString (bytes * 100 / (1024 * 1024) / 100) ++ "." ++
    toString (bytes * 100 / (1024 * 1024) % 100)

/-- Success reply of the video handler (bot.js line 570). -/
def videoSuccessText (url : String) (fileSize duration : Nat) : String :=
  "🎥 *Video berhasil diupload ke Catbox!*\n\n🔗 Link: " ++ url ++
    "\n📏 Ukuran: " ++ formatMB fileSize ++ " MB\n⏱️ Durasi: " ++ toString duration ++
    "s\n\n📋 Klik link untuk menyalin atau bagikan ke orang lain."

/-- The video handler (bot.js lines 536-591) as a function of the inbound
message fields and the outcomes of the two I/O steps: dl is the result of
downloadFileFromTelegram (error message or success) and uploadBody the
Catbox response body.  Returns the final global state (the handler never
mutates it) and the ordered list of observable actions.  When upload is
disabled nothing happens; otherwise a typing indicator is sent, then the
200 MB size gate runs before any download, then download and upload each
short-circuit to an error reply on failure. -/
def onVideo (st : BotState) (chatId : Nat) (fileId : String) (fileSize : Nat)
    (dl : Except String Unit) (uploadBody : String) (duration now : Nat) :
    BotState × List BotAction :=
  if st.uploadEnabled = false then
    (st, [])
  else if 200 * 1024 * 1024 < fileSize then
    (st, [.chatAction chatId "typing",
          .sendMessage chatId "❌ Ukuran video terlalu besar! Maksimal 200MB."])
  else
    match dl with
    | .error e =>
      (st, [.chatAction chatId "typing", .getFile fileId,
            .sendMessage chatId ("❌ Gagal mengunduh video: " ++ e)])
    | .ok _ =>
      match uploadToCatbox uploadBody with
      | .ok url =>
        (st, [.chatAction chatId "typing", .getFile fileId,
              .catboxUpload ("video_" ++ toString now ++ ".mp4"),
              .sendMessage chatId (videoSuccessText url fileSize duration)])
      | .err e =>
        (st, [.chatAction chatId "typing", .getFile fileId,
              .catboxUpload ("video_" ++ toString now ++ ".mp4"),
              .sendMessage chatId ("❌ Gagal mengupload video: " ++ e)])

/-- C6: with upload enabled, a video whose reported file_size exceeds
200 MB (200*1024*1024 bytes) is rejected with the fixed too-large reply
right after the typing indicator, before any download attempt, and the
global state is unchanged. -/
theorem claim_C6 (st : BotState) (chatId : Nat) (fileId : String) (fileSize : Nat)
    (dl : Except String Unit) (uploadBody : String) (duration now : Nat)
    (hUp : st.uploadEnabled = true) (hSize : 200 * 1024 * 1024 < fileSize) :
    onVideo st chatId fileId fileSize dl uploadBody duration now
      = (st, [.chatAction chatId "typing",
              .sendMessage chatId "❌ Ukuran video terlalu besar! Maksimal 200MB."])
    ∧ ∀ f, BotAction.getFile f ∉
        (onVideo st chatId fileId fileSize dl uploadBody duration now).2 := by
  have hne : ¬ (st.uploadEnabled = false) := by simp [hUp]
  constructor
  · simp [onVideo, hne, hSize]
  · intro f
    simp [onVideo, hne, hSize]

theorem claim_C6_witness :
    (onVideo ⟨fun _ => none, true, true⟩ 5 "file42" (210 * 1024 * 1024)
        (Except.ok ()) "body" 60 100
      = (⟨fun _ => none, true, true⟩,
         [.chatAction 5 "typing",
          .sendMessage 5 "❌ Ukuran video terlalu besar! Maksimal 200MB."]))
    ∧ ∀ f, BotAction.getFile f ∉
        (onVideo ⟨fun _ => none, true, true⟩ 5 "file42" (210 * 1024 * 1024)
          (Except.ok ()) "body" 60 100).2 :=
  claim_C6 ⟨fun _ => none, true, true⟩ 5 "file42" (210 * 1024 * 1024)
    (Except.ok ()) "body" 60 100 rfl (by norm_num)

/-- A conversation-store entry as it may appear on disk or in a mutated
in-memory store: any of role, content, timestamp may be absent. -/
structure StoredMessage where
  role : Option String
  content : Option String
  timestamp : Option Nat
deriving DecidableEq, Repr

/-- JavaScript truthiness of an optional string field: absent and the
empty string are falsy. -/
def truthyStr : Option String → Bool
  | none => false
  | some s => s != ""

/-- JavaScript truthiness of an optional numeric timestamp: absent and 0
are falsy. -/
def truthyTimestamp : Option Nat → Bool
  | none => false
  | some t => t != 0

/-- The persistence filter msg.role && msg.content used by both
saveConversationHistory (bot.js line 163) and loadConversationHistory
(line 143). -/
def validMessage (m : StoredMessage) : Bool :=
  truthyStr m.role && truthyStr m.content

/-- msg.timestamp || Date.now() (bot.js line 146): the stored timestamp
when truthy (present and non-zero), the current time otherwise. -/
def jsOrTimestamp : Option Nat → Nat → Nat
  | some t, now => if t = 0 then now else t
  | none, now => now

/-- The backfill map applied per message on load (bot.js lines 144-147):
keep all fields, replacing a falsy timestamp with the current time. -/
def backfillMessage (now : Nat) (m : StoredMessage) : StoredMessage :=
  ⟨m.role, m.content, some (jsOrTimestamp m.timestamp now)⟩

/-- saveConversationHistory (bot.js lines 158-170), modelled as the
transformation from the in-memory store to the JSON document written to
disk: per chat, drop entries missing a truthy role or content. -/
def saveConversationHistory (store : List (String × List StoredMessage)) :
    List (String × List StoredMessage) :=
  store.map (fun e => (e.1, e.2.filter validMessage))

/-- loadConversationHistory (bot.js lines 135-156), modelled as the
transformation from the parsed JSON document to the in-memory store: per
chat, drop entries missing a truthy role or content, then backfill falsy
timestamps with the current time. -/
def loadConversationHistory (now : Nat) (file : List (String × List StoredMessage)) :
    List (String × List StoredMessage) :=
  file.map (fun e => (e.1, (e.2.filter validMessage).map (backfillMessage now)))

/-- The role/content projection of a message, the data C7 says survives
the save/load round trip. -/
def roleContent (m : StoredMessage) : Option String × Option String :=
  (m.role, m.content)

/-- C7 as written is false on the code: a present timestamp of 0 is falsy,
so msg.timestamp || Date.now() replaces it on load — a present timestamp
is altered.  Concretely, saving a chat holding one valid message with
timestamp 0 and loading at time 5 yields timestamp 5. -/
theorem claim_C7_counterexample :
    loadConversationHistory 5
        (saveConversationHistory [("1", [⟨some "user", some "hi", some 0⟩])])
      = [("1", [⟨some "user", some "hi", some 5⟩])]
    ∧ (some 0 : Option Nat) ≠ some 5 := by
  constructor
  · rfl
  · decide

theorem backfillMessage_of_truthy (now : Nat) (m : StoredMessage)
    (h : truthyTimestamp m.timestamp = true) : backfillMessage now m = m := by
  obtain ⟨r, c, t⟩ := m
  cases t with
  | none => simp [truthyTimestamp] at h
  | some t0 =>
    simp only [truthyTimestamp, bne_iff_ne, ne_eq, decide_eq_true_eq] at h
    simp [backfillMessage, jsOrTimestamp, h]

theorem filter_valid_idem (l : List StoredMessage) :
    (l.filter validMessage).filter validMessage = l.filter validMessage := by
  induction l with
  | nil => rfl
  | cons m rest ih =>
    by_cases hv : validMessage m = true
    · simp [List.filter, hv, ih]
    · simp only [List.filter, hv]
      simp [hv, ih]

theorem backfillMessage_of_falsy (now : Nat) (m : StoredMessage)
    (h : truthyTimestamp m.timestamp = false) :
    backfillMessage now m = ⟨m.role, m.content, some now⟩ := by
  obtain ⟨r, c, t⟩ := m
  cases t with
  | none => rfl
  | some t0 =>
    simp only [truthyTimestamp] at h
    have ht0 : t0 = 0 := by simpa using h
    simp [backfillMessage, jsOrTimestamp, ht0]

theorem zip_map_self {α β : Type _} (g : α → β) (l : List α) :
    l.zip (l.map g) = l.map (fun a => (a, g a)) := by
  induction l with
  | nil => rfl
  | cons a t ih => simp [ih]

theorem load_save_eq (store : List (String × List StoredMessage)) (now : Nat) :
    loadConversationHistory now (saveConversationHistory store)
      = (saveConversationHistory store).map
          (fun e => (e.1, e.2.map (backfillMessage now))) := by
  simp only [loadConversationHistory, saveConversationHistory, List.map_map]
  refine List.map_congr_left ?_
  intro e _
  simp [Function.comp, filter_valid_idem]

/-- C7 (amended): saving then loading reproduces, per chat, the sequence
of role/content pairs of the valid entries (entries without a truthy role
or content are dropped on both save and load); the loaded store pairs up
chat-by-chat and message-by-message with the saved store, and each loaded
message is the saved message unchanged when its timestamp is truthy
(present and non-zero — never altered, also in stores mixing truthy and
falsy timestamps), and the saved message with its timestamp replaced by
the load time when the timestamp is falsy (absent or zero — backfilled
with the load time). -/
theorem claim_C7_amended (store : List (String × List StoredMessage)) (now : Nat) :
    ((loadConversationHistory now (saveConversationHistory store)).map
        (fun e => (e.1, e.2.map roleContent))
      = store.map (fun e => (e.1, (e.2.filter validMessage).map roleContent)))
    ∧ ((loadConversationHistory now (saveConversationHistory store)).length
        = (saveConversationHistory store).length)
    ∧ (∀ ce ∈ (saveConversationHistory store).zip
          (loadConversationHistory now (saveConversationHistory store)),
        ce.2.1 = ce.1.1
        ∧ ce.2.2.length = ce.1.2.length
        ∧ ∀ p ∈ ce.1.2.zip ce.2.2,
            (truthyTimestamp p.1.timestamp = true → p.2 = p.1)
            ∧ (truthyTimestamp p.1.timestamp = false
                → p.2 = ⟨p.1.role, p.1.content, some now⟩)) := by
  refine ⟨?_, ?_, ?_⟩
  · simp only [loadConversationHistory, saveConversationHistory, List.map_map]
    refine List.map_congr_left ?_
    intro e _
    simp [filter_valid_idem, List.map_map, Function.comp, roleContent, backfillMessage]
  · rw [load_save_eq]
    simp
  · intro ce hce
    rw [load_save_eq, zip_map_self] at hce
    obtain ⟨e, _, rfl⟩ := List.mem_map.mp hce
    refine ⟨rfl, by simp, ?_⟩
    intro p hp
    simp only at hp
    rw [zip_map_self] at hp
    obtain ⟨m, _, rfl⟩ := List.mem_map.mp hp
    exact ⟨backfillMessage_of_truthy now m, backfillMessage_of_falsy now m⟩

/-- Concrete store for the C7 witness: one chat mixing a valid message
with a truthy timestamp, a valid message with timestamp 0, and an entry
without a role. -/
def sampleStore : List (String × List StoredMessage) :=
  [("1", [⟨some "user", some "hi", some 7⟩,
          ⟨some "user", some "z", some 0⟩,
          ⟨none, some "x", some 3⟩])]

theorem claim_C7_witness :
    ((loadConversationHistory 99 (saveConversationHistory sampleStore)).map
        (fun e => (e.1, e.2.map roleContent))
      = sampleStore.map (fun e => (e.1, (e.2.filter validMessage).map roleContent)))
    ∧ ((loadConversationHistory 99 (saveConversationHistory sampleStore)).length
        = (saveConversationHistory sampleStore).length)
    ∧ (∀ ce ∈ (saveConversationHistory sampleStore).zip
          (loadConversationHistory 99 (saveConversationHistory sampleStore)),
        ce.2.1 = ce.1.1
        ∧ ce.2.2.length = ce.1.2.length
        ∧ ∀ p ∈ ce.1.2.zip ce.2.2,
            (truthyTimestamp p.1.timestamp = true → p.2 = p.1)
            ∧ (truthyTimestamp p.1.timestamp = false
                → p.2 = ⟨p.1.role, p.1.content, some 99⟩)) :=
  claim_C7_amended sampleStore 99

/-- A parsed JSON value / JavaScript runtime value, as far as the status
files need: undefined, null, booleans, numbers, strings, objects. -/
inductive JsVal where
  | undef : JsVal
  | nullV : JsVal
  | boolV : Bool → JsVal
  | numV : Int → JsVal
  | strV : String → JsVal
  | objV : List (String × JsVal) → JsVal

/-- JSON object field lookup, last occurrence winning as in JSON.parse. -/
def lookupField : List (String × JsVal) → String → Option JsVal
  | [], _ => none
  | (k, v) :: rest, key =>
    match lookupField rest key with
    | some w => some w
    | none => if k = key then some v else none

/-- JavaScript property access v[key]: none models a thrown TypeError
(access on null or undefined, caught by the loaders); on other primitives
the access yields undefined, on objects the field's value or undefined
when absent.  (Built-in properties of primitives are not modelled; the
loaders only access the flag keys.) -/
def getProp : JsVal → String → Option JsVal
  | .undef, _ => none
  | .nullV, _ => none
  | .boolV _, _ => some .undef
  | .numV _, _ => some .undef
  | .strV _, _ => some .undef
  | .objV fields, key => some ((lookupField fields key).getD .undef)

/-- loadUploadStatus (bot.js lines 52-62) and loadAIStatus (lines
1841-1851), which differ only in the file and key: file is none when the
backing file does not exist (the flag keeps its current value), some none
when reading/parsing throws (the error is logged and the flag keeps its
current value), and some (some v) when parsing yields v — then the flag is
assigned v[key], unless that property access itself throws (caught,
current value kept). -/
def loadStatusFlag (key : String) (current : JsVal) (file : Option (Option JsVal)) : JsVal :=
  match file with
  | none => current
  | some none => current
  | some (some v) =>
    match getProp v key with
    | none => current
    | some w => w

/-- saveUploadStatus (bot.js lines 64-71) and saveAIStatus (lines
1853-1860): JSON.stringify({ key: flag }) written to disk, modelled as the
parsed document it reads back as.  A stringified undefined field is
dropped, so the written object is empty in that case. -/
def saveStatusFile (key : String) (flag : JsVal) : Option (Option JsVal) :=
  match flag with
  | .undef => some (some (.objV []))
  | v => some (some (.objV [(key, v)]))

/-- JavaScript truthiness of a runtime value. -/
def jsTruthy : JsVal → Bool
  | .undef => false
  | .nullV => false
  | .boolV b => b
  | .numV n => n != 0
  | .strV s => s != ""
  | .objV _ => true

/-- The toggle_ai / toggle_upload callback mutation (bot.js lines
1525, 1558): the flag becomes the boolean negation of its truthiness, and
is then saved synchronously. -/
def toggleFlag (current : JsVal) : JsVal :=
  .boolV (!jsTruthy current)

/-- C9: toggling a feature flag (AI or upload) and persisting it, then
loading the store in a fresh process (whose in-memory flag starts at the
default true), yields exactly the persisted boolean, for both flags and
from any current flag value. -/
theorem claim_C9 (current : JsVal) :
    loadStatusFlag "uploadEnabled" (.boolV true)
        (saveStatusFile "uploadEnabled" (toggleFlag current)) = toggleFlag current
    ∧ loadStatusFlag "aiEnabled" (.boolV true)
        (saveStatusFile "aiEnabled" (toggleFlag current)) = toggleFlag current := by
  constructor
  · simp [loadStatusFlag, saveStatusFile, toggleFlag, getProp, lookupField]
  · simp [loadStatusFlag, saveStatusFile, toggleFlag, getProp, lookupField]

/-- C10 as written is false on the code: a backing record that parses to
an object without the flag key (for example the file content {}) is
neither logged nor defaulted — the flag is assigned the property's value,
undefined, a non-boolean; the default true is not kept. -/
theorem claim_C10_counterexample :
    loadStatusFlag "uploadEnabled" (.boolV true) (some (some (.objV []))) = JsVal.undef
    ∧ JsVal.undef ≠ JsVal.boolV true := by
  refine ⟨rfl, fun h => ?_⟩
  cases h

/-- C10 (amended): at boot the flag keeps its default (true) when no
backing file exists, when reading or parsing the file throws, or when the
parsed value is null (the property access throws and is caught); but a
successfully parsed non-null record is not validated — the flag is set to
whatever the record's field holds, which is undefined (non-boolean) when
the field is absent.  Stated for both flag keys. -/
theorem claim_C10_amended (current : JsVal) (fields : List (String × JsVal)) :
    (loadStatusFlag "uploadEnabled" current none = current)
    ∧ (loadStatusFlag "uploadEnabled" current (some none) = current)
    ∧ (loadStatusFlag "uploadEnabled" current (some (some .nullV)) = current)
    ∧ (loadStatusFlag "uploadEnabled" current (some (some (.objV fields)))
        = (lookupField fields "uploadEnabled").getD .undef)
    ∧ (loadStatusFlag "aiEnabled" current none = current)
    ∧ (loadStatusFlag "aiEnabled" current (some none) = current)
    ∧ (loadStatusFlag "aiEnabled" current (some (some .nullV)) = current)
    ∧ (loadStatusFlag "aiEnabled" current (some (some (.objV fields)))
        = (lookupField fields "aiEnabled").getD .undef) :=
  ⟨rfl, rfl, rfl, rfl, rfl, rfl, rfl, rfl⟩

end BotTele
